import Mathlib

/-!
Verification of the indicator / signal engine of the stock-astic-portfolio
repository (src/analysis/technical_analysis.py, src/analysis/trading_strategies.py,
src/dashboard/callbacks.py, src/utils.py).

Modelling conventions (shallow embedding of the pandas code):
* A possibly-NaN float series is `List (Option ℚ)`; `none` stands for NaN.
  Exact rational arithmetic stands in for float arithmetic.
* A fully defined price column is `List ℚ`.
* Every comparison against NaN is false in pandas (IEEE semantics); the
  `oLT`/`oLE`/`oGT`/`oGE` helpers below return `false` when either side is `none`.
* `Series.shift(1)` is modelled by `prevAt`: index `t` reads index `t-1`,
  and index 0 reads NaN.
* `Series.rolling(window=w).mean()` on a fully defined series is `rollingMean`:
  NaN for the first `w-1` indices, thereafter the mean of the trailing `w` values.
* `Series.ewm(span=w, adjust=False).mean()` is `ewmAF` with multiplier `2/(w+1)`.
-/

namespace StockAstic

/-- Index access into a possibly-NaN series: out of range reads NaN. -/
def sget (xs : List (Option ℚ)) (t : Nat) : Option ℚ :=
  xs.getD t none

/-- `Series.shift(1)` read at index `t`: index 0 (and anything out of range)
reads NaN, otherwise the value one step earlier. -/
def prevAt (xs : List (Option ℚ)) (t : Nat) : Option ℚ :=
  if t = 0 then none else sget xs (t - 1)

/-- `a < b` on possibly-NaN values: false whenever either side is NaN. -/
def oLT (a b : Option ℚ) : Bool :=
  match a, b with
  | some x, some y => decide (x < y)
  | _, _ => false

/-- `a <= b` on possibly-NaN values: false whenever either side is NaN. -/
def oLE (a b : Option ℚ) : Bool :=
  match a, b with
  | some x, some y => decide (x ≤ y)
  | _, _ => false

/-- `a > b` on possibly-NaN values: false whenever either side is NaN. -/
def oGT (a b : Option ℚ) : Bool :=
  match a, b with
  | some x, some y => decide (y < x)
  | _, _ => false

/-- `a >= b` on possibly-NaN values: false whenever either side is NaN. -/
def oGE (a b : Option ℚ) : Bool :=
  match a, b with
  | some x, some y => decide (y ≤ x)
  | _, _ => false

/-- The trailing window of `w` values ending at index `i` (inclusive). -/
def trailWindow (w : Nat) (xs : List ℚ) (i : Nat) : List ℚ :=
  (xs.drop (i + 1 - w)).take w

/-- `Series.rolling(window=w).mean()` on a fully defined series:
NaN while fewer than `w` values are available, thereafter the arithmetic
mean of the trailing `w` values. -/
def rollingMean (w : Nat) (xs : List ℚ) : List (Option ℚ) :=
  (List.range xs.length).map (fun i =>
    if w ≤ i + 1 then some ((trailWindow w xs i).sum / w) else none)

/-- `calculate_sma` (technical_analysis.py): the `sma_<w>` column is the
rolling mean of `close` over window `w`. -/
def calculate_sma (w : Nat) (close : List ℚ) : List (Option ℚ) :=
  rollingMean w close

theorem rollingMean_length (w : Nat) (xs : List ℚ) :
    (rollingMean w xs).length = xs.length := by
  simp [rollingMean]

theorem rollingMean_sget (w : Nat) (xs : List ℚ) (i : Nat) (hi : i < xs.length) :
    sget (rollingMean w xs) i =
      if w ≤ i + 1 then some ((trailWindow w xs i).sum / w) else none := by
  simp [rollingMean, sget, List.getD, List.getElem?_map, List.getElem?_range, hi]

theorem rollingMean_sget_none (w : Nat) (xs : List ℚ) (i : Nat) (hi : i + 1 < w) :
    sget (rollingMean w xs) i = none := by
  by_cases h : i < xs.length
  · rw [rollingMean_sget w xs i h]
    simp [Nat.not_le.mpr hi]
  · simp [sget, List.getD, List.getElem?_eq_none, rollingMean_length, Nat.le_of_not_lt h]

/-- C2: for every window `w ≥ 1` and fully defined close series, the SMA column
is NaN at every index `i < w - 1`, and at every `i ≥ w - 1` equals the mean of
the trailing `w` closes (indices `i - w + 1 .. i`). -/
theorem calculate_sma_spec (w : Nat) (hw : 1 ≤ w) (close : List ℚ)
    (i : Nat) (hi : i < close.length) :
    (i < w - 1 → sget (calculate_sma w close) i = none) ∧
    (w - 1 ≤ i →
      sget (calculate_sma w close) i =
        some (((close.drop (i + 1 - w)).take w).sum / w)) := by
  constructor
  · intro h
    have : i + 1 < w := by omega
    exact rollingMean_sget_none w close i this
  · intro h
    have hwi : w ≤ i + 1 := by omega
    rw [calculate_sma, rollingMean_sget w close i hi]
    simp [hwi, trailWindow]

/-- Witness for C2 at the spec's end-to-end scenario: closes
`[100,102,101,103,105]`, window 3: index 2 is `101`, indices 0 and 1 NaN. -/
theorem calculate_sma_spec_witness :
    sget (calculate_sma 3 [100, 102, 101, 103, 105]) 2 = some 101 ∧
    sget (calculate_sma 3 [100, 102, 101, 103, 105]) 0 = none ∧
    sget (calculate_sma 3 [100, 102, 101, 103, 105]) 1 = none := by
  refine ⟨?_, ?_, ?_⟩
  · have h := (calculate_sma_spec 3 (by decide) [100, 102, 101, 103, 105] 2
      (by decide)).2 (by decide)
    rw [h]; norm_num
  · exact (calculate_sma_spec 3 (by decide) [100, 102, 101, 103, 105] 0
      (by decide)).1 (by decide)
  · exact (calculate_sma_spec 3 (by decide) [100, 102, 101, 103, 105] 1
      (by decide)).1 (by decide)

/-- State recursion of `Series.ewm(span=w, adjust=False).mean()`:
`ewmGo m prev xs` lists `prev` followed by the smoothed values of `xs`,
each step computing `(x - prev) * m + prev`. -/
def ewmGo (m prev : ℚ) : List ℚ → List ℚ
  | [] => [prev]
  | x :: xs => prev :: ewmGo m ((x - prev) * m + prev) xs

/-- `Series.ewm(span=w, adjust=False).mean()` with multiplier `m`:
empty on the empty series, otherwise seeded with the first value. -/
def ewmAF (m : ℚ) : List ℚ → List ℚ
  | [] => []
  | x :: xs => ewmGo m x xs

/-- `calculate_ema` (technical_analysis.py): the `ema_<w>` column, exponential
smoothing with span `w`, `adjust=False`, i.e. multiplier `2/(w+1)`. -/
def calculate_ema (w : Nat) (close : List ℚ) : List ℚ :=
  ewmAF (2 / (w + 1)) close

theorem ewmGo_length (m p : ℚ) (xs : List ℚ) :
    (ewmGo m p xs).length = xs.length + 1 := by
  induction xs generalizing p with
  | nil => rfl
  | cons x xs ih => simp [ewmGo, ih]

theorem ewmGo_getD_zero (m p : ℚ) (xs : List ℚ) :
    (ewmGo m p xs).getD 0 0 = p := by
  cases xs <;> rfl

theorem ewmGo_getD_succ (m : ℚ) (xs : List ℚ) (p : ℚ) (t : Nat)
    (ht : t < xs.length) :
    (ewmGo m p xs).getD (t + 1) 0 =
      (xs.getD t 0 - (ewmGo m p xs).getD t 0) * m + (ewmGo m p xs).getD t 0 := by
  induction xs generalizing p t with
  | nil => simp at ht
  | cons x xs ih =>
    cases t with
    | zero =>
      simp only [ewmGo, List.getD_cons_succ, List.getD_cons_zero, ewmGo_getD_zero]
    | succ s =>
      have hs : s < xs.length := by simpa using ht
      have := ih ((x - p) * m + p) s hs
      simpa only [ewmGo, List.getD_cons_succ] using this

/-- C3: for every window `w` and non-empty close series, the EMA column
satisfies `ema[0] = close[0]` and, for every `t`,
`ema[t+1] = (close[t+1] - ema[t]) * (2/(w+1)) + ema[t]`. -/
theorem calculate_ema_spec (w : Nat) (close : List ℚ) (h : close ≠ []) :
    (calculate_ema w close).getD 0 0 = close.getD 0 0 ∧
    ∀ t, t + 1 < close.length →
      (calculate_ema w close).getD (t + 1) 0 =
        (close.getD (t + 1) 0 - (calculate_ema w close).getD t 0) * (2 / (w + 1))
          + (calculate_ema w close).getD t 0 := by
  match close, h with
  | x :: xs, _ =>
    constructor
    · simp only [calculate_ema, ewmAF, ewmGo_getD_zero, List.getD_cons_zero]
    · intro t ht
      have hs : t < xs.length := by simpa using ht
      have := ewmGo_getD_succ (2 / (w + 1)) xs x t hs
      simpa only [calculate_ema, ewmAF, List.getD_cons_succ] using this

/-- Witness for C3 at `w = 3`, closes `[100, 102]`: the seed and one
recurrence step. -/
theorem calculate_ema_spec_witness :
    (calculate_ema 3 [100, 102]).getD 0 0 = (100 : ℚ) ∧
    (calculate_ema 3 [100, 102]).getD 1 0 =
      ((102 : ℚ) - (calculate_ema 3 [100, 102]).getD 0 0) * (2 / (3 + 1))
        + (calculate_ema 3 [100, 102]).getD 0 0 := by
  have h := calculate_ema_spec 3 [100, 102] (by decide)
  refine ⟨?_, ?_⟩
  · simpa using h.1
  · simpa using h.2 0 (by decide)

/-- `Series.diff()`: NaN at index 0, else the difference with the previous value. -/
def diffList (xs : List ℚ) : List (Option ℚ) :=
  (List.range xs.length).map (fun i =>
    if i = 0 then none else some (xs.getD i 0 - xs.getD (i - 1) 0))

/-- `delta.where(delta > 0, 0)` for `delta = close.diff()`: the positive daily
deltas, with non-positive deltas — and the NaN at index 0, since `NaN > 0` is
false — replaced by 0. -/
def gainRaw (close : List ℚ) : List ℚ :=
  (diffList close).map (fun d =>
    match d with
    | some v => if 0 < v then v else 0
    | none => 0)

/-- `-delta.where(delta < 0, 0)`: magnitudes of the negative daily deltas,
with non-negative deltas and the leading NaN replaced by 0. -/
def lossRaw (close : List ℚ) : List ℚ :=
  (diffList close).map (fun d =>
    match d with
    | some v => if v < 0 then -v else 0
    | none => 0)

/-- `rsi = 100 - 100/(1 + rs)`, `rs = gain/loss`, at one index, with the
float edge cases of the source made explicit: when `loss = 0` and `gain > 0`,
`rs` is `+inf` and the expression evaluates to 100; when both are 0, `rs` is
NaN and so is the result. -/
def rsiPoint (g l : ℚ) : Option ℚ :=
  if l = 0 then (if g = 0 then none else some 100)
  else some (100 - 100 / (1 + g / l))

/-- `calculate_rsi` (technical_analysis.py): the `rsi` column, built from the
rolling means over window `w` of the gain and loss series. -/
def calculate_rsi (w : Nat) (close : List ℚ) : List (Option ℚ) :=
  (List.range close.length).map (fun i =>
    match sget (rollingMean w (gainRaw close)) i,
          sget (rollingMean w (lossRaw close)) i with
    | some g, some l => rsiPoint g l
    | _, _ => none)

theorem diffList_length (xs : List ℚ) : (diffList xs).length = xs.length := by
  simp [diffList]

theorem gainRaw_length (xs : List ℚ) : (gainRaw xs).length = xs.length := by
  simp [gainRaw, diffList_length]

theorem lossRaw_length (xs : List ℚ) : (lossRaw xs).length = xs.length := by
  simp [lossRaw, diffList_length]

theorem gainRaw_nonneg (xs : List ℚ) : ∀ x ∈ gainRaw xs, 0 ≤ x := by
  intro x hx
  simp only [gainRaw, List.mem_map] at hx
  obtain ⟨d, -, hd⟩ := hx
  subst hd
  cases d with
  | none => exact le_rfl
  | some v =>
    dsimp only
    split
    next h => linarith
    next h => exact le_rfl

theorem trailWindow_sum_nonneg (w : Nat) (xs : List ℚ) (i : Nat)
    (hxs : ∀ x ∈ xs, 0 ≤ x) : 0 ≤ (trailWindow w xs i).sum := by
  apply List.sum_nonneg
  intro x hx
  exact hxs x (List.mem_of_mem_drop (List.mem_of_mem_take hx))

theorem calculate_rsi_sget (w : Nat) (close : List ℚ) (i : Nat)
    (hi : i < close.length) :
    sget (calculate_rsi w close) i =
      match sget (rollingMean w (gainRaw close)) i,
            sget (rollingMean w (lossRaw close)) i with
      | some g, some l => rsiPoint g l
      | _, _ => none := by
  simp [calculate_rsi, sget, List.getD, List.getElem?_map, List.getElem?_range, hi]

/-- C6: at every index where the rolling mean of losses is defined and
strictly positive, the RSI value is defined and lies in `[0, 100]`. -/
theorem calculate_rsi_bounded (w : Nat) (close : List ℚ) (i : Nat)
    (hi : i < close.length) (l : ℚ)
    (hl : sget (rollingMean w (lossRaw close)) i = some l) (hpos : 0 < l) :
    ∃ r, sget (calculate_rsi w close) i = some r ∧ 0 ≤ r ∧ r ≤ 100 := by
  have hil : i < (lossRaw close).length := by rwa [lossRaw_length]
  have hig : i < (gainRaw close).length := by rwa [gainRaw_length]
  rw [rollingMean_sget w (lossRaw close) i hil] at hl
  by_cases hw : w ≤ i + 1
  swap
  · simp [hw] at hl
  simp only [hw, if_true, Option.some.injEq] at hl
  have hwq : (0 : ℚ) < w := by
    rcases Nat.eq_zero_or_pos w with h0 | h1
    · exfalso; subst h0; rw [← hl] at hpos; norm_num at hpos
    · exact_mod_cast h1
  set g : ℚ := (trailWindow w (gainRaw close) i).sum / w with hgdef
  have hg : sget (rollingMean w (gainRaw close)) i = some g := by
    rw [rollingMean_sget w (gainRaw close) i hig]
    simp [hw]
  have hgnn : 0 ≤ g := by
    apply div_nonneg _ (le_of_lt hwq)
    exact trailWindow_sum_nonneg w (gainRaw close) i (gainRaw_nonneg close)
  have hlsget : sget (rollingMean w (lossRaw close)) i = some l := by
    rw [rollingMean_sget w (lossRaw close) i hil]
    simp [hw, hl]
  refine ⟨100 - 100 / (1 + g / l), ?_, ?_, ?_⟩
  · rw [calculate_rsi_sget w close i hi, hg, hlsget]
    show rsiPoint g l = some (100 - 100 / (1 + g / l))
    simp only [rsiPoint]
    rw [if_neg (ne_of_gt hpos)]
  · have hql : 0 ≤ g / l := div_nonneg hgnn (le_of_lt hpos)
    have : 100 / (1 + g / l) ≤ 100 := by
      apply div_le_self (by norm_num)
      linarith
    linarith
  · have hql : 0 ≤ g / l := div_nonneg hgnn (le_of_lt hpos)
    have : 0 < 100 / (1 + g / l) := by positivity
    linarith

/-- Witness for C6: window 1, closes `[2, 1]`, index 1 — the loss mean is 1
and the RSI value exists in `[0, 100]`. -/
theorem calculate_rsi_bounded_witness :
    ∃ r, sget (calculate_rsi 1 [2, 1]) 1 = some r ∧ 0 ≤ r ∧ r ≤ 100 := by
  apply calculate_rsi_bounded 1 [2, 1] 1 (by norm_num) 1 _ (by norm_num)
  show sget (rollingMean 1 (lossRaw [2, 1])) 1 = some 1
  norm_num [rollingMean, lossRaw, diffList, trailWindow, sget, List.getD,
    List.range_succ]

/-- `rsi_strategy` buy column (trading_strategies.py):
`(rsi.shift(1) > oversold_level) & (rsi <= oversold_level)`. -/
def rsi_strategy_buy (oversold : ℚ) (rsi : List (Option ℚ)) : List Bool :=
  (List.range rsi.length).map (fun t =>
    oGT (prevAt rsi t) (some oversold) && oLE (sget rsi t) (some oversold))

/-- `rsi_strategy` sell column:
`(rsi.shift(1) < overbought_level) & (rsi >= overbought_level)`. -/
def rsi_strategy_sell (overbought : ℚ) (rsi : List (Option ℚ)) : List Bool :=
  (List.range rsi.length).map (fun t =>
    oLT (prevAt rsi t) (some overbought) && oGE (sget rsi t) (some overbought))

theorem rsi_strategy_buy_getD (os : ℚ) (rsi : List (Option ℚ)) (t : Nat)
    (ht : t < rsi.length) :
    (rsi_strategy_buy os rsi).getD t false =
      (oGT (prevAt rsi t) (some os) && oLE (sget rsi t) (some os)) := by
  simp [rsi_strategy_buy, List.getD, List.getElem?_map, List.getElem?_range, ht]

theorem rsi_strategy_sell_getD (ob : ℚ) (rsi : List (Option ℚ)) (t : Nat)
    (ht : t < rsi.length) :
    (rsi_strategy_sell ob rsi).getD t false =
      (oLT (prevAt rsi t) (some ob) && oGE (sget rsi t) (some ob)) := by
  simp [rsi_strategy_sell, List.getD, List.getElem?_map, List.getElem?_range, ht]

/-- C4: at any index `t ≥ 1` where both `rsi[t-1] = a` and `rsi[t] = b` are
defined, the buy signal holds iff `a > oversold` and `b ≤ oversold`, and the
sell signal holds iff `a < overbought` and `b ≥ overbought` — buy uses `≤`,
sell uses `≥`, and the comparison on the previous value is strict. -/
theorem rsi_strategy_spec (os ob : ℚ) (rsi : List (Option ℚ)) (t : Nat)
    (ht : 1 ≤ t) (htl : t < rsi.length) (a b : ℚ)
    (ha : sget rsi (t - 1) = some a) (hb : sget rsi t = some b) :
    ((rsi_strategy_buy os rsi).getD t false = true ↔ (os < a ∧ b ≤ os)) ∧
    ((rsi_strategy_sell ob rsi).getD t false = true ↔ (a < ob ∧ ob ≤ b)) := by
  have ht0 : t ≠ 0 := by omega
  rw [rsi_strategy_buy_getD os rsi t htl, rsi_strategy_sell_getD ob rsi t htl]
  simp [prevAt, ht0, ha, hb, oGT, oLE, oLT, oGE]

/-- Witness for C4: `rsi = [35, 25]`, `t = 1`, oversold 30, overbought 70 —
the buy signal fires (35 > 30 and 25 ≤ 30), the sell signal does not. -/
theorem rsi_strategy_spec_witness :
    ((rsi_strategy_buy 30 [some 35, some 25]).getD 1 false = true ↔
      ((30 : ℚ) < 35 ∧ (25 : ℚ) ≤ 30)) ∧
    ((rsi_strategy_sell 70 [some 35, some 25]).getD 1 false = true ↔
      ((35 : ℚ) < 70 ∧ (70 : ℚ) ≤ 25)) :=
  rsi_strategy_spec 30 70 [some 35, some 25] 1 (by norm_num) (by norm_num)
    35 25 rfl rfl

theorem oLT_none_left (b : Option ℚ) : oLT none b = false := by cases b <;> rfl

theorem oLT_none_right (a : Option ℚ) : oLT a none = false := by cases a <;> rfl

theorem oLE_none_left (b : Option ℚ) : oLE none b = false := by cases b <;> rfl

theorem oLE_none_right (a : Option ℚ) : oLE a none = false := by cases a <;> rfl

theorem oGT_none_left (b : Option ℚ) : oGT none b = false := by cases b <;> rfl

theorem oGT_none_right (a : Option ℚ) : oGT a none = false := by cases a <;> rfl

theorem oGE_none_left (b : Option ℚ) : oGE none b = false := by cases b <;> rfl

theorem oGE_none_right (a : Option ℚ) : oGE a none = false := by cases a <;> rfl

theorem getD_range_map (f : Nat → Bool) (n t : Nat) :
    ((List.range n).map f).getD t false = if t < n then f t else false := by
  by_cases h : t < n
  · simp [List.getD, List.getElem?_map, List.getElem?_range, h]
  · have hle : n ≤ t := Nat.le_of_not_lt h
    simp [List.getD, List.getElem?_eq_none, hle, h]

/-- `sma_crossover_strategy` buy column (trading_strategies.py):
`(short_sma.shift(1) < long_sma.shift(1)) & (short_sma > long_sma)`. -/
def sma_crossover_buy (shortS longS : List (Option ℚ)) : List Bool :=
  (List.range shortS.length).map (fun t =>
    oLT (prevAt shortS t) (prevAt longS t) && oGT (sget shortS t) (sget longS t))

/-- `sma_crossover_strategy` sell column:
`(short_sma.shift(1) > long_sma.shift(1)) & (short_sma < long_sma)`. -/
def sma_crossover_sell (shortS longS : List (Option ℚ)) : List Bool :=
  (List.range shortS.length).map (fun t =>
    oGT (prevAt shortS t) (prevAt longS t) && oLT (sget shortS t) (sget longS t))

/-- `macd_crossover_strategy` buy column:
`(macd.shift(1) < macd_signal.shift(1)) & (macd > macd_signal)`. -/
def macd_crossover_buy (macd sig : List (Option ℚ)) : List Bool :=
  (List.range macd.length).map (fun t =>
    oLT (prevAt macd t) (prevAt sig t) && oGT (sget macd t) (sget sig t))

/-- `macd_crossover_strategy` sell column:
`(macd.shift(1) > macd_signal.shift(1)) & (macd < macd_signal)`. -/
def macd_crossover_sell (macd sig : List (Option ℚ)) : List Bool :=
  (List.range macd.length).map (fun t =>
    oGT (prevAt macd t) (prevAt sig t) && oLT (sget macd t) (sget sig t))

/-- `bollinger_bands_strategy` buy column: `close < lower_band`
(a state condition, no shift). -/
def bb_buy (close lower : List (Option ℚ)) : List Bool :=
  (List.range close.length).map (fun t => oLT (sget close t) (sget lower t))

/-- `bollinger_bands_strategy` sell column: `close > upper_band`. -/
def bb_sell (close upper : List (Option ℚ)) : List Bool :=
  (List.range close.length).map (fun t => oGT (sget close t) (sget upper t))

/-- `stochastic_oscillator_strategy` buy column:
`(K.shift(1) < D.shift(1)) & (K > D) & (K < oversold_level)`. -/
def stoch_buy (oversold : ℚ) (k d : List (Option ℚ)) : List Bool :=
  (List.range k.length).map (fun t =>
    oLT (prevAt k t) (prevAt d t) && oGT (sget k t) (sget d t) &&
      oLT (sget k t) (some oversold))

/-- `stochastic_oscillator_strategy` sell column:
`(K.shift(1) > D.shift(1)) & (K < D) & (K > overbought_level)`. -/
def stoch_sell (overbought : ℚ) (k d : List (Option ℚ)) : List Bool :=
  (List.range k.length).map (fun t =>
    oGT (prevAt k t) (prevAt d t) && oLT (sget k t) (sget d t) &&
      oGT (sget k t) (some overbought))

/-- `calculate_macd` (technical_analysis.py): the `macd` column,
`ema(fast) - ema(slow)` of close, both with `adjust=False`. -/
def calculate_macd_line (fast slow : Nat) (close : List ℚ) : List ℚ :=
  List.zipWith (fun a b => a - b) (calculate_ema fast close) (calculate_ema slow close)

/-- The `macd_signal` column: ewm of the `macd` column with span
`signal_period`, `adjust=False`. -/
def calculate_macd_signal_line (fast slow sigp : Nat) (close : List ℚ) : List ℚ :=
  ewmAF (2 / (sigp + 1)) (calculate_macd_line fast slow close)

theorem calculate_rsi_length (w : Nat) (close : List ℚ) :
    (calculate_rsi w close).length = close.length := by
  simp [calculate_rsi]

theorem calculate_rsi_sget_none (w : Nat) (close : List ℚ) (i : Nat)
    (hi : i + 1 < w) : sget (calculate_rsi w close) i = none := by
  by_cases h : i < close.length
  · rw [calculate_rsi_sget w close i h,
      rollingMean_sget_none w (gainRaw close) i hi]
  · simp [sget, List.getD, List.getElem?_eq_none, calculate_rsi_length,
      Nat.le_of_not_lt h]

/-- C7 counterexample: the MACD strategy runs on EMA-based columns (window
parameters 12, 26, 9) that have no warm-up region, and fires a buy signal
already at index 2 on closes `[100, 90, 200]` — before every window
parameter, refuting "the first index at which any signal can be true is
`w`" as a statement about every strategy. -/
theorem first_signal_index_counterexample :
    (macd_crossover_buy
        ((calculate_macd_line 12 26 [100, 90, 200]).map some)
        ((calculate_macd_signal_line 12 26 9 [100, 90, 200]).map some)).getD 2 false
      = true ∧ 2 < 12 ∧ 2 < 26 ∧ 2 < 9 := by
  refine ⟨?_, by norm_num, by norm_num, by norm_num⟩
  have hm : calculate_macd_line 12 26 [100, 90, 200] =
      [0, -280 / 351, 906920 / 123201] := by
    norm_num [calculate_macd_line, calculate_ema, ewmAF, ewmGo]
  have hs : calculate_macd_signal_line 12 26 9 [100, 90, 200] =
      [0, -56 / 351, 828296 / 616005] := by
    rw [calculate_macd_signal_line, hm]
    norm_num [ewmAF, ewmGo]
  rw [hm, hs]
  norm_num [macd_crossover_buy, prevAt, sget, List.getD, List.range_succ,
    oLT, oGT]

/-- C7 amended: for the crossing strategies over rolling-window indicator
columns — SMA crossover on `sma_<sw>`/`sma_<lw>` and RSI threshold on the
window-`w` RSI — every signal is false at each index below the governing
window (`max sw lw`, resp. `w`), and index `w` itself is attainable (RSI,
`w = 2`, closes `[300, 400, 100]`, buy at index 2). EMA-based indicator
columns (MACD) carry no warm-up, so those strategies can fire earlier. -/
theorem first_signal_index_amended :
    (∀ (close : List ℚ) (sw lw t : Nat), t < max sw lw →
      (sma_crossover_buy (rollingMean sw close) (rollingMean lw close)).getD t false
        = false ∧
      (sma_crossover_sell (rollingMean sw close) (rollingMean lw close)).getD t false
        = false) ∧
    (∀ (w : Nat) (close : List ℚ) (os ob : ℚ) (t : Nat), t < w →
      (rsi_strategy_buy os (calculate_rsi w close)).getD t false = false ∧
      (rsi_strategy_sell ob (calculate_rsi w close)).getD t false = false) ∧
    (rsi_strategy_buy 30 (calculate_rsi 2 [300, 400, 100])).getD 2 false = true := by
  refine ⟨?_, ?_, ?_⟩
  · intro close sw lw t ht
    constructor
    · simp only [sma_crossover_buy]
      rw [getD_range_map]
      by_cases hn : t < (rollingMean sw close).length
      swap
      · simp [hn]
      simp only [hn, if_true]
      by_cases ht0 : t = 0
      · simp [ht0, prevAt, oLT_none_left]
      by_cases hlw : t < lw
      · have hL : sget (rollingMean lw close) (t - 1) = none :=
          rollingMean_sget_none lw close (t - 1) (by omega)
        simp [prevAt, ht0, hL, oLT_none_right]
      · have hsw : t < sw := by omega
        have hS : sget (rollingMean sw close) (t - 1) = none :=
          rollingMean_sget_none sw close (t - 1) (by omega)
        simp [prevAt, ht0, hS, oLT_none_left]
    · simp only [sma_crossover_sell]
      rw [getD_range_map]
      by_cases hn : t < (rollingMean sw close).length
      swap
      · simp [hn]
      simp only [hn, if_true]
      by_cases ht0 : t = 0
      · simp [ht0, prevAt, oGT_none_left]
      by_cases hlw : t < lw
      · have hL : sget (rollingMean lw close) (t - 1) = none :=
          rollingMean_sget_none lw close (t - 1) (by omega)
        simp [prevAt, ht0, hL, oGT_none_right]
      · have hsw : t < sw := by omega
        have hS : sget (rollingMean sw close) (t - 1) = none :=
          rollingMean_sget_none sw close (t - 1) (by omega)
        simp [prevAt, ht0, hS, oGT_none_left]
  · intro w close os ob t ht
    constructor
    · simp only [rsi_strategy_buy]
      rw [getD_range_map]
      by_cases hn : t < (calculate_rsi w close).length
      swap
      · simp [hn]
      simp only [hn, if_true]
      by_cases ht0 : t = 0
      · simp [ht0, prevAt, oGT_none_left]
      · have hR : sget (calculate_rsi w close) (t - 1) = none :=
          calculate_rsi_sget_none w close (t - 1) (by omega)
        simp [prevAt, ht0, hR, oGT_none_left]
    · simp only [rsi_strategy_sell]
      rw [getD_range_map]
      by_cases hn : t < (calculate_rsi w close).length
      swap
      · simp [hn]
      simp only [hn, if_true]
      by_cases ht0 : t = 0
      · simp [ht0, prevAt, oLT_none_left]
      · have hR : sget (calculate_rsi w close) (t - 1) = none :=
          calculate_rsi_sget_none w close (t - 1) (by omega)
        simp [prevAt, ht0, hR, oLT_none_left]
  · have hrsi : calculate_rsi 2 [300, 400, 100] = [none, some 100, some 25] := by
      norm_num [calculate_rsi, rollingMean, gainRaw, lossRaw, diffList,
        trailWindow, sget, List.getD, List.range_succ, rsiPoint]
    rw [hrsi]
    norm_num [rsi_strategy_buy, prevAt, sget, List.getD, List.range_succ,
      oGT, oLE]

/-- Witness for the amended C7: concrete warm-up indices where each crossing
strategy's signals are false. -/
theorem first_signal_index_amended_witness :
    ((sma_crossover_buy (rollingMean 2 [1, 2, 3, 4]) (rollingMean 3 [1, 2, 3, 4])).getD
        2 false = false ∧
     (sma_crossover_sell (rollingMean 2 [1, 2, 3, 4]) (rollingMean 3 [1, 2, 3, 4])).getD
        2 false = false) ∧
    ((rsi_strategy_buy 30 (calculate_rsi 14 [1, 2, 3])).getD 5 false = false ∧
     (rsi_strategy_sell 70 (calculate_rsi 14 [1, 2, 3])).getD 5 false = false) :=
  ⟨first_signal_index_amended.1 [1, 2, 3, 4] 2 3 2 (by decide),
   first_signal_index_amended.2.1 14 [1, 2, 3] 30 70 5 (by decide)⟩

/-- C10: every strategy's buy/sell signal is false at any index where a
required indicator value being compared is NaN at `t` or `t-1` — comparisons
against NaN never hold — and in particular at index 0 every crossing
strategy's signals are false. -/
theorem strategy_nan_guard :
    (∀ (os : ℚ) (rsi : List (Option ℚ)) (t : Nat),
       prevAt rsi t = none ∨ sget rsi t = none →
       (rsi_strategy_buy os rsi).getD t false = false) ∧
    (∀ (ob : ℚ) (rsi : List (Option ℚ)) (t : Nat),
       prevAt rsi t = none ∨ sget rsi t = none →
       (rsi_strategy_sell ob rsi).getD t false = false) ∧
    (∀ (s l : List (Option ℚ)) (t : Nat),
       prevAt s t = none ∨ prevAt l t = none ∨ sget s t = none ∨ sget l t = none →
       (sma_crossover_buy s l).getD t false = false ∧
       (sma_crossover_sell s l).getD t false = false) ∧
    (∀ (m sig : List (Option ℚ)) (t : Nat),
       prevAt m t = none ∨ prevAt sig t = none ∨ sget m t = none ∨ sget sig t = none →
       (macd_crossover_buy m sig).getD t false = false ∧
       (macd_crossover_sell m sig).getD t false = false) ∧
    (∀ (c lo : List (Option ℚ)) (t : Nat),
       sget c t = none ∨ sget lo t = none →
       (bb_buy c lo).getD t false = false) ∧
    (∀ (c up : List (Option ℚ)) (t : Nat),
       sget c t = none ∨ sget up t = none →
       (bb_sell c up).getD t false = false) ∧
    (∀ (os : ℚ) (k d : List (Option ℚ)) (t : Nat),
       prevAt k t = none ∨ prevAt d t = none ∨ sget k t = none ∨ sget d t = none →
       (stoch_buy os k d).getD t false = false) ∧
    (∀ (ob : ℚ) (k d : List (Option ℚ)) (t : Nat),
       prevAt k t = none ∨ prevAt d t = none ∨ sget k t = none ∨ sget d t = none →
       (stoch_sell ob k d).getD t false = false) ∧
    (∀ (os ob : ℚ) (xs ys : List (Option ℚ)),
       (rsi_strategy_buy os xs).getD 0 false = false ∧
       (rsi_strategy_sell ob xs).getD 0 false = false ∧
       (sma_crossover_buy xs ys).getD 0 false = false ∧
       (sma_crossover_sell xs ys).getD 0 false = false ∧
       (macd_crossover_buy xs ys).getD 0 false = false ∧
       (macd_crossover_sell xs ys).getD 0 false = false ∧
       (stoch_buy os xs ys).getD 0 false = false ∧
       (stoch_sell ob xs ys).getD 0 false = false) := by
  have hrsib : ∀ (os : ℚ) (rsi : List (Option ℚ)) (t : Nat),
      prevAt rsi t = none ∨ sget rsi t = none →
      (rsi_strategy_buy os rsi).getD t false = false := by
    intro os rsi t h
    simp only [rsi_strategy_buy]; rw [getD_range_map]
    by_cases hn : t < rsi.length
    · simp only [hn, if_true]
      rcases h with h | h
      · simp [h, oGT_none_left]
      · simp [h, oLE_none_left]
    · simp [hn]
  have hrsis : ∀ (ob : ℚ) (rsi : List (Option ℚ)) (t : Nat),
      prevAt rsi t = none ∨ sget rsi t = none →
      (rsi_strategy_sell ob rsi).getD t false = false := by
    intro ob rsi t h
    simp only [rsi_strategy_sell]; rw [getD_range_map]
    by_cases hn : t < rsi.length
    · simp only [hn, if_true]
      rcases h with h | h
      · simp [h, oLT_none_left]
      · simp [h, oGE_none_left]
    · simp [hn]
  have hsma : ∀ (s l : List (Option ℚ)) (t : Nat),
      prevAt s t = none ∨ prevAt l t = none ∨ sget s t = none ∨ sget l t = none →
      (sma_crossover_buy s l).getD t false = false ∧
      (sma_crossover_sell s l).getD t false = false := by
    intro s l t h
    constructor
    · simp only [sma_crossover_buy]; rw [getD_range_map]
      by_cases hn : t < s.length
      · simp only [hn, if_true]
        rcases h with h | h | h | h
        · simp [h, oLT_none_left]
        · simp [h, oLT_none_right]
        · simp [h, oGT_none_left]
        · simp [h, oGT_none_right]
      · simp [hn]
    · simp only [sma_crossover_sell]; rw [getD_range_map]
      by_cases hn : t < s.length
      · simp only [hn, if_true]
        rcases h with h | h | h | h
        · simp [h, oGT_none_left]
        · simp [h, oGT_none_right]
        · simp [h, oLT_none_left]
        · simp [h, oLT_none_right]
      · simp [hn]
  have hmacd : ∀ (m sig : List (Option ℚ)) (t : Nat),
      prevAt m t = none ∨ prevAt sig t = none ∨ sget m t = none ∨ sget sig t = none →
      (macd_crossover_buy m sig).getD t false = false ∧
      (macd_crossover_sell m sig).getD t false = false := by
    intro m sig t h
    constructor
    · simp only [macd_crossover_buy]; rw [getD_range_map]
      by_cases hn : t < m.length
      · simp only [hn, if_true]
        rcases h with h | h | h | h
        · simp [h, oLT_none_left]
        · simp [h, oLT_none_right]
        · simp [h, oGT_none_left]
        · simp [h, oGT_none_right]
      · simp [hn]
    · simp only [macd_crossover_sell]; rw [getD_range_map]
      by_cases hn : t < m.length
      · simp only [hn, if_true]
        rcases h with h | h | h | h
        · simp [h, oGT_none_left]
        · simp [h, oGT_none_right]
        · simp [h, oLT_none_left]
        · simp [h, oLT_none_right]
      · simp [hn]
  have hbbb : ∀ (c lo : List (Option ℚ)) (t : Nat),
      sget c t = none ∨ sget lo t = none →
      (bb_buy c lo).getD t false = false := by
    intro c lo t h
    simp only [bb_buy]; rw [getD_range_map]
    by_cases hn : t < c.length
    · simp only [hn, if_true]
      rcases h with h | h
      · simp [h, oLT_none_left]
      · simp [h, oLT_none_right]
    · simp [hn]
  have hbbs : ∀ (c up : List (Option ℚ)) (t : Nat),
      sget c t = none ∨ sget up t = none →
      (bb_sell c up).getD t false = false := by
    intro c up t h
    simp only [bb_sell]; rw [getD_range_map]
    by_cases hn : t < c.length
    · simp only [hn, if_true]
      rcases h with h | h
      · simp [h, oGT_none_left]
      · simp [h, oGT_none_right]
    · simp [hn]
  have hstb : ∀ (os : ℚ) (k d : List (Option ℚ)) (t : Nat),
      prevAt k t = none ∨ prevAt d t = none ∨ sget k t = none ∨ sget d t = none →
      (stoch_buy os k d).getD t false = false := by
    intro os k d t h
    simp only [stoch_buy]; rw [getD_range_map]
    by_cases hn : t < k.length
    · simp only [hn, if_true]
      rcases h with h | h | h | h
      · simp [h, oLT_none_left]
      · simp [h, oLT_none_right]
      · simp [h, oGT_none_left]
      · simp [h, oGT_none_right]
    · simp [hn]
  have hsts : ∀ (ob : ℚ) (k d : List (Option ℚ)) (t : Nat),
      prevAt k t = none ∨ prevAt d t = none ∨ sget k t = none ∨ sget d t = none →
      (stoch_sell ob k d).getD t false = false := by
    intro ob k d t h
    simp only [stoch_sell]; rw [getD_range_map]
    by_cases hn : t < k.length
    · simp only [hn, if_true]
      rcases h with h | h | h | h
      · simp [h, oGT_none_left]
      · simp [h, oGT_none_right]
      · simp [h, oLT_none_left]
      · simp [h, oLT_none_right]
    · simp [hn]
  refine ⟨hrsib, hrsis, hsma, hmacd, hbbb, hbbs, hstb, hsts, ?_⟩
  intro os ob xs ys
  exact ⟨hrsib os xs 0 (Or.inl rfl), hrsis ob xs 0 (Or.inl rfl),
    (hsma xs ys 0 (Or.inl rfl)).1, (hsma xs ys 0 (Or.inl rfl)).2,
    (hmacd xs ys 0 (Or.inl rfl)).1, (hmacd xs ys 0 (Or.inl rfl)).2,
    hstb os xs ys 0 (Or.inl rfl), hsts ob xs ys 0 (Or.inl rfl)⟩

/-- Witness for C10: NaN inputs at concrete indices give false signals. -/
theorem strategy_nan_guard_witness :
    (rsi_strategy_buy 30 [none, some 50]).getD 1 false = false ∧
    (bb_buy [some 10] [none]).getD 0 false = false ∧
    (stoch_sell 80 [some 90, some 85] [none, some 70]).getD 1 false = false :=
  ⟨strategy_nan_guard.1 30 [none, some 50] 1 (Or.inl rfl),
   strategy_nan_guard.2.2.2.2.1 [some 10] [none] 0 (Or.inr rfl),
   strategy_nan_guard.2.2.2.2.2.2.2.1 80 [some 90, some 85] [none, some 70] 1
     (Or.inr (Or.inl rfl))⟩

/-- A table of named boolean signal columns, one entry per column. -/
abbrev SigTable := List (String × List Bool)

/-- Python's substring test `pat in s`: `splitOn` yields at least two pieces
exactly when `pat` occurs in `s`. -/
def containsSub (s pat : String) : Bool :=
  2 ≤ (s.splitOn pat).length

/-- `combine_signals` buy-column selection (trading_strategies.py): name
contains `buy_signal` and is not the aggregate `strong_buy_signal`. -/
def isBuySignalName (name : String) : Bool :=
  containsSub name "buy_signal" && name != "strong_buy_signal"

/-- Sell-column selection: name contains `sell_signal` and is not the
aggregate `strong_sell_signal`. -/
def isSellSignalName (name : String) : Bool :=
  containsSub name "sell_signal" && name != "strong_sell_signal"

/-- `df[buy_signal_columns].sum(axis=1)` at date `t`: booleans sum as 0/1. -/
def buy_signal_count (df : SigTable) (t : Nat) : Nat :=
  ((df.filter (fun c => isBuySignalName c.1)).map
    (fun c => if c.2.getD t false then 1 else 0)).sum

/-- `df[sell_signal_columns].sum(axis=1)` at date `t`. -/
def sell_signal_count (df : SigTable) (t : Nat) : Nat :=
  ((df.filter (fun c => isSellSignalName c.1)).map
    (fun c => if c.2.getD t false then 1 else 0)).sum

/-- `strong_buy_signal` at date `t`: `(buy_count >= 2) & (sell_count == 0)`. -/
def strong_buy_signal (df : SigTable) (t : Nat) : Bool :=
  decide (2 ≤ buy_signal_count df t) && decide (sell_signal_count df t = 0)

/-- `strong_sell_signal` at date `t`: `(sell_count >= 2) & (buy_count == 0)`. -/
def strong_sell_signal (df : SigTable) (t : Nat) : Bool :=
  decide (2 ≤ sell_signal_count df t) && decide (buy_signal_count df t = 0)

/-- The spec's phrasing of a consensus count: the number of selected signal
columns whose value at `t` is true. -/
def specBuyCount (df : SigTable) (t : Nat) : Nat :=
  (df.filter (fun c => isBuySignalName c.1)).countP (fun c => c.2.getD t false)

/-- The number of selected sell columns true at `t`. -/
def specSellCount (df : SigTable) (t : Nat) : Nat :=
  (df.filter (fun c => isSellSignalName c.1)).countP (fun c => c.2.getD t false)

theorem sum_boolIndicator (l : List (String × List Bool))
    (p : String × List Bool → Bool) :
    (l.map (fun c => if p c then 1 else 0)).sum = l.countP p := by
  induction l with
  | nil => rfl
  | cons c l ih =>
    simp only [List.map_cons, List.sum_cons, List.countP_cons, ih]
    by_cases h : p c
    · simp [h, Nat.add_comm]
    · simp [h]

/-- C1: the aggregation counts the true buy/sell columns (selected by naming
convention, aggregates excluded) per date, and the strong signals are exactly
`buy_count ≥ 2 ∧ sell_count = 0`, resp. `sell_count ≥ 2 ∧ buy_count = 0`. -/
theorem combine_signals_spec (df : SigTable) (t : Nat) :
    strong_buy_signal df t = decide (2 ≤ specBuyCount df t ∧ specSellCount df t = 0) ∧
    strong_sell_signal df t = decide (2 ≤ specSellCount df t ∧ specBuyCount df t = 0) := by
  have hb : buy_signal_count df t = specBuyCount df t := sum_boolIndicator _ _
  have hs : sell_signal_count df t = specSellCount df t := sum_boolIndicator _ _
  constructor
  · simp only [strong_buy_signal, hb, hs]
    by_cases h1 : 2 ≤ specBuyCount df t <;> by_cases h2 : specSellCount df t = 0 <;>
      simp [h1, h2]
  · simp only [strong_sell_signal, hb, hs]
    by_cases h1 : 2 ≤ specSellCount df t <;> by_cases h2 : specBuyCount df t = 0 <;>
      simp [h1, h2]

/-- C5: `strong_buy_signal` and `strong_sell_signal` are never both true. -/
theorem combine_signals_mutual_exclusion (df : SigTable) (t : Nat) :
    (strong_buy_signal df t && strong_sell_signal df t) = false := by
  simp only [strong_buy_signal, strong_sell_signal]
  by_cases h : sell_signal_count df t = 0 <;> simp [h]

/-- A dataframe column: numeric (possibly NaN per entry) or boolean. -/
inductive Col where
  | num (xs : List (Option ℚ))
  | flag (xs : List Bool)
deriving DecidableEq

/-- A dataframe: named columns. -/
abbrev DFrame := List (String × Col)

/-- `df[name]` (pandas `__getitem__`): the column, or a `MissingColumn`
error (pandas raises `KeyError`) when no column has that name. -/
def getCol (df : DFrame) (name : String) : Except String Col :=
  match df.find? (fun c => c.1 == name) with
  | some c => Except.ok c.2
  | none => Except.error ("MissingColumn: " ++ name)

/-- Read a column numerically, booleans as 0/1 (pandas coercion). -/
def colNum : Col → List (Option ℚ)
  | Col.num xs => xs
  | Col.flag bs => bs.map (fun b => some (if b then 1 else 0))

/-- `df[name] = col`: overwrite the column if present, else append it. -/
def setCol (df : DFrame) (name : String) (c : Col) : DFrame :=
  if df.any (fun e => e.1 == name)
  then df.map (fun e => if e.1 == name then (name, c) else e)
  else df ++ [(name, c)]

/-- `Series.rolling(window=w).mean()` on a possibly-NaN series: NaN when
fewer than `w` values are available or any value in the window is NaN. -/
def rollingMeanO (w : Nat) (xs : List (Option ℚ)) : List (Option ℚ) :=
  (List.range xs.length).map (fun i =>
    if w ≤ i + 1 then
      match ((xs.drop (i + 1 - w)).take w).mapM id with
      | some vs => some (vs.sum / w)
      | none => none
    else none)

/-- `calculate_sma` at the dataframe level: reads `close` — a missing column
is a `MissingColumn` error — and writes the `sma_<w>` column. -/
def calculate_sma_df (w : Nat) (df : DFrame) : Except String DFrame := do
  let c ← getCol df "close"
  Except.ok (setCol df ("sma_" ++ toString w)
    (Col.num (rollingMeanO w (colNum c))))

/-- `rsi_strategy` at the dataframe level: reads `rsi` — a missing column is
a `MissingColumn` error — and writes the two boolean signal columns. -/
def rsi_strategy_df (ob os : ℚ) (df : DFrame) : Except String DFrame := do
  let c ← getCol df "rsi"
  let rsi := colNum c
  Except.ok (setCol
    (setCol df "rsi_buy_signal" (Col.flag (rsi_strategy_buy os rsi)))
    "rsi_sell_signal" (Col.flag (rsi_strategy_sell ob rsi)))

/-- C8: given a table without the required column, the indicator function
(`close` for `calculate_sma`) and the strategy function (`rsi` for
`rsi_strategy`) fail with a propagated `MissingColumn` error rather than
producing defaults. -/
theorem missing_column_spec (df : DFrame) :
    (df.find? (fun c => c.1 == "close") = none →
      ∀ w, calculate_sma_df w df = Except.error ("MissingColumn: " ++ "close")) ∧
    (df.find? (fun c => c.1 == "rsi") = none →
      ∀ ob os : ℚ,
        rsi_strategy_df ob os df = Except.error ("MissingColumn: " ++ "rsi")) := by
  constructor
  · intro h w
    simp [calculate_sma_df, getCol, h, Bind.bind, Except.bind]
  · intro h ob os
    simp [rsi_strategy_df, getCol, h, Bind.bind, Except.bind]

/-- Witness for C8: concrete tables lacking `close`, resp. `rsi`. -/
theorem missing_column_spec_witness :
    calculate_sma_df 3 [("open", Col.num [some 1])] =
      Except.error ("MissingColumn: " ++ "close") ∧
    rsi_strategy_df 70 30 [("close", Col.num [some 1])] =
      Except.error ("MissingColumn: " ++ "rsi") :=
  ⟨(missing_column_spec [("open", Col.num [some 1])]).1 (by decide) 3,
   (missing_column_spec [("close", Col.num [some 1])]).2 (by decide) 70 30⟩

/-- The add branch of `update_watchlist` (dashboard/callbacks.py) for a
validated symbol, after the callback has upper-cased it: append and persist
when absent, otherwise leave the stored list unchanged and report that the
symbol is already present. -/
def add_symbol (wl : List String) (s : String) : List String × String :=
  if wl.contains s then (wl, s ++ " is already in watchlist.")
  else (wl ++ [s], s ++ " added to watchlist.")

/-- The remove branch of `update_watchlist` for an upper-cased symbol:
Python's `list.remove` drops the first occurrence when present, otherwise the
list is unchanged and the message reports it missing. -/
def remove_symbol (wl : List String) (s : String) : List String × String :=
  if wl.contains s then (wl.erase s, s ++ " removed from watchlist.")
  else (wl, s ++ " not found in watchlist.")

/-- C9 counterexample: from prior state `["AAPL"]`, adding `"AAPL"` is a
no-op and the subsequent remove deletes it, so the round trip does not
return to the prior state. -/
theorem watchlist_round_trip_counterexample :
    ((remove_symbol (add_symbol ["AAPL"] "AAPL").1 "AAPL").1 = ["AAPL"]) ↔ False := by
  decide

/-- C9 amended: when the symbol is not already present, adding then removing
it returns the watchlist to its prior state; adding an already-present symbol
is a no-op on the stored list reporting "is already in watchlist.". -/
theorem watchlist_round_trip_amended (wl : List String) (s : String) :
    (wl.contains s = false →
      (remove_symbol (add_symbol wl s).1 s).1 = wl) ∧
    (wl.contains s = true →
      add_symbol wl s = (wl, s ++ " is already in watchlist.")) := by
  constructor
  · intro h
    have hmem : s ∉ wl := by simpa using h
    simp only [add_symbol, h, if_false, Bool.false_eq_true]
    have hc : (wl ++ [s]).contains s = true := by simp
    simp only [remove_symbol, hc, if_true]
    rw [List.erase_append_right _ hmem]
    simp [List.erase_cons_head]
  · intro h
    have hmem : s ∈ wl := by simpa using h
    simp [add_symbol, h, hmem]

/-- Witness for the amended C9 at concrete watchlists. -/
theorem watchlist_round_trip_amended_witness :
    (remove_symbol (add_symbol ["MSFT"] "AAPL").1 "AAPL").1 = ["MSFT"] ∧
    add_symbol ["AAPL"] "AAPL" = (["AAPL"], "AAPL" ++ " is already in watchlist.") :=
  ⟨(watchlist_round_trip_amended ["MSFT"] "AAPL").1 (by decide),
   (watchlist_round_trip_amended ["AAPL"] "AAPL").2 (by decide)⟩

end StockAstic
